import Mathlib

/-!
Verification of the PhysVLM-Intent core pipeline.

This file embeds the data-shaping kernel of the repository in Lean:
the per-word frame sampler of pipeline/video_processor.py, the
coordinate transform and orchestration of pipeline/pipeline.py, and the
object-description extraction of pipeline/llm_client.py.  External
effects (file system, OpenCV reads and writes, network calls to ASR and
LLM services) are modelled by explicit environment records of oracles;
all data logic is translated directly from the Python source.
-/

/-- Python int() applied to a rational value: truncation toward zero. -/
def pyInt (q : ℚ) : ℤ := if 0 ≤ q then ⌊q⌋ else ⌈q⌉

/-!
Sample-time generation, from split_video_by_words
(pipeline/video_processor.py lines 72-82):

    sample_times = [begin_time]
    current_time = begin_time + sampling_interval
    while current_time < end_time:
        sample_times.append(current_time)
        current_time += sampling_interval
    if end_time not in sample_times:
        sample_times.append(end_time)

The while loop is embedded with a fuel argument bounding the number of
iterations; each iteration advances current_time by at least one when
the interval is positive, so fuel equal to end_time always suffices
(the loop body runs only while current_time < end_time).
-/

/-- The interior-sample while loop of split_video_by_words. -/
def sampleLoop (end_time interval : ℕ) : ℕ → ℕ → List ℕ
  | 0, _ => []
  | fuel + 1, current =>
    if current < end_time then
      current :: sampleLoop end_time interval fuel (current + interval)
    else []

/-- The full sample-time list for one word, lines 72-82 of
pipeline/video_processor.py. -/
def sample_times (begin_time end_time interval : ℕ) : List ℕ :=
  let ts := begin_time :: sampleLoop end_time interval end_time (begin_time + interval)
  if end_time ∈ ts then ts else ts ++ [end_time]

theorem sampleLoop_mem_iff {end_time interval : ℕ} (hi : 0 < interval) :
    ∀ (fuel current : ℕ), end_time ≤ current + fuel →
      ∀ t : ℕ, t ∈ sampleLoop end_time interval fuel current ↔
        ∃ k : ℕ, t = current + k * interval ∧ t < end_time := by
  intro fuel
  induction fuel with
  | zero =>
    intro current hle t
    simp only [sampleLoop, List.not_mem_nil, false_iff]
    rintro ⟨k, hk, hlt⟩
    have h1 : current ≤ t := by
      rw [hk]; exact Nat.le_add_right _ _
    omega
  | succ n ih =>
    intro current hle t
    by_cases hcur : current < end_time
    · simp only [sampleLoop, if_pos hcur, List.mem_cons]
      rw [ih (current + interval) (by omega) t]
      constructor
      · rintro (rfl | ⟨k, hk, hlt⟩)
        · exact ⟨0, by simp, hcur⟩
        · refine ⟨k + 1, ?_, hlt⟩
          rw [hk]; ring
      · rintro ⟨k, hk, hlt⟩
        cases k with
        | zero =>
          left
          simpa using hk
        | succ m =>
          right
          refine ⟨m, ?_, hlt⟩
          rw [hk]; ring
    · simp only [sampleLoop, if_neg hcur, List.not_mem_nil, false_iff]
      rintro ⟨k, hk, hlt⟩
      have h1 : current ≤ t := by
        rw [hk]; exact Nat.le_add_right _ _
      omega

theorem sampleLoop_lower {end_time interval : ℕ} :
    ∀ (fuel current t : ℕ), t ∈ sampleLoop end_time interval fuel current →
      current ≤ t := by
  intro fuel
  induction fuel with
  | zero =>
    intro current t ht
    simp [sampleLoop] at ht
  | succ n ih =>
    intro current t ht
    by_cases hcur : current < end_time
    · simp only [sampleLoop, if_pos hcur, List.mem_cons] at ht
      rcases ht with rfl | ht
      · exact le_refl t
      · exact le_trans (Nat.le_add_right _ _) (ih (current + interval) t ht)
    · simp [sampleLoop, if_neg hcur] at ht

theorem sampleLoop_lt_end {end_time interval : ℕ} :
    ∀ (fuel current t : ℕ), t ∈ sampleLoop end_time interval fuel current →
      t < end_time := by
  intro fuel
  induction fuel with
  | zero =>
    intro current t ht
    simp [sampleLoop] at ht
  | succ n ih =>
    intro current t ht
    by_cases hcur : current < end_time
    · simp only [sampleLoop, if_pos hcur, List.mem_cons] at ht
      rcases ht with rfl | ht
      · exact hcur
      · exact ih (current + interval) t ht
    · simp [sampleLoop, if_neg hcur] at ht

theorem sampleLoop_chain {end_time interval : ℕ} (hi : 0 < interval) :
    ∀ (fuel current : ℕ),
      List.Chain' (· < ·) (sampleLoop end_time interval fuel current) := by
  intro fuel
  induction fuel with
  | zero =>
    intro current
    simp [sampleLoop]
  | succ n ih =>
    intro current
    by_cases hcur : current < end_time
    · simp only [sampleLoop, if_pos hcur]
      rw [List.chain'_cons']
      refine ⟨?_, ih (current + interval)⟩
      intro b hb
      have hmem : b ∈ sampleLoop end_time interval n (current + interval) :=
        List.mem_of_mem_head? hb
      have h1 : current + interval ≤ b := sampleLoop_lower n (current + interval) b hmem
      omega
    · simp [sampleLoop, if_neg hcur]

theorem mem_base_iff (b e i : ℕ) (hi : 0 < i) (t : ℕ) :
    t ∈ b :: sampleLoop e i e (b + i) ↔
      t = b ∨ ∃ k : ℕ, 0 < k ∧ t = b + k * i ∧ t < e := by
  simp only [List.mem_cons]
  rw [sampleLoop_mem_iff hi e (b + i) (by omega) t]
  constructor
  · rintro (rfl | ⟨k, hk, hlt⟩)
    · exact Or.inl rfl
    · refine Or.inr ⟨k + 1, Nat.succ_pos k, ?_, hlt⟩
      rw [hk]; ring
  · rintro (rfl | ⟨k, hkpos, hk, hlt⟩)
    · exact Or.inl rfl
    · right
      cases k with
      | zero => omega
      | succ m =>
        refine ⟨m, ?_, hlt⟩
        rw [hk]; ring

theorem sample_times_degenerate (b i : ℕ) : sample_times b b i = [b] := by
  have hloop : sampleLoop b i b (b + i) = [] := by
    apply List.eq_nil_iff_forall_not_mem.mpr
    intro t ht
    have h1 : b + i ≤ t := sampleLoop_lower b (b + i) t ht
    have h2 : t < b := sampleLoop_lt_end b (b + i) t ht
    omega
  simp [sample_times, hloop]

theorem sample_times_of_lt (b e i : ℕ) (hi : 0 < i) (hbe : b < e) :
    sample_times b e i =
      (b :: sampleLoop e i e (b + i)) ++ [e] := by
  have hnot : e ∉ b :: sampleLoop e i e (b + i) := by
    intro hmem
    rcases (mem_base_iff b e i hi e).mp hmem with h | ⟨k, _, _, hlt⟩
    · omega
    · omega
  simp [sample_times, hnot]

/-- Claim C1: for every word with begin less or equal to end and a positive
sampling interval, the sample-time list built by split_video_by_words is
strictly ascending, contains exactly the span begin, the span end, and the
interior points begin + k * interval that are strictly below end, contains
each span endpoint exactly once, and on the two concrete spec examples
equals [1000, 1300, 1600, 1900, 2200] and [500] respectively. -/
theorem sample_times_spec (b e i : ℕ) (hbe : b ≤ e) (hi : 0 < i) :
    List.Chain' (· < ·) (sample_times b e i) ∧
    (∀ t : ℕ, t ∈ sample_times b e i ↔
      t = b ∨ t = e ∨ ∃ k : ℕ, 0 < k ∧ t = b + k * i ∧ t < e) ∧
    (sample_times b e i).count b = 1 ∧
    (sample_times b e i).count e = 1 ∧
    sample_times 1000 2200 300 = [1000, 1300, 1600, 1900, 2200] ∧
    sample_times 500 500 300 = [500] := by
  rcases Nat.eq_or_lt_of_le hbe with rfl | hlt
  · rw [sample_times_degenerate b i]
    refine ⟨by simp, ?_, by simp, by simp, by decide, by decide⟩
    intro t
    simp only [List.mem_singleton]
    constructor
    · intro h
      exact Or.inl h
    · rintro (rfl | rfl | ⟨k, hkpos, hk, hltb⟩)
      · rfl
      · rfl
      · have h1 : b ≤ t := by
          rw [hk]; exact Nat.le_add_right _ _
        omega
  · rw [sample_times_of_lt b e i hi hlt]
    have hloopchain := @sampleLoop_chain e i hi e (b + i)
    have hbase_lt : ∀ t ∈ b :: sampleLoop e i e (b + i), t < e := by
      intro t ht
      rcases List.mem_cons.mp ht with rfl | ht
      · exact hlt
      · exact sampleLoop_lt_end e (b + i) t ht
    have hbasechain : List.Chain' (· < ·) (b :: sampleLoop e i e (b + i)) := by
      rw [List.chain'_cons']
      refine ⟨?_, hloopchain⟩
      intro t ht
      have hmem : t ∈ sampleLoop e i e (b + i) := List.mem_of_mem_head? ht
      have h1 : b + i ≤ t := sampleLoop_lower e (b + i) t hmem
      omega
    have hchain : List.Chain' (· < ·) ((b :: sampleLoop e i e (b + i)) ++ [e]) := by
      rw [List.chain'_append]
      refine ⟨hbasechain, by simp, ?_⟩
      intro x hx y hy
      have hxmem : x ∈ b :: sampleLoop e i e (b + i) := by
        exact List.mem_of_mem_getLast? hx
      have hylast : e = y := by simpa using hy
      rw [← hylast]
      exact hbase_lt x hxmem
    have hmem : ∀ t : ℕ, t ∈ (b :: sampleLoop e i e (b + i)) ++ [e] ↔
        t = b ∨ t = e ∨ ∃ k : ℕ, 0 < k ∧ t = b + k * i ∧ t < e := by
      intro t
      rw [List.mem_append]
      rw [mem_base_iff b e i hi t]
      simp only [List.mem_singleton]
      constructor
      · rintro (h | h)
        · rcases h with rfl | hx
          · exact Or.inl rfl
          · exact Or.inr (Or.inr hx)
        · exact Or.inr (Or.inl h)
      · rintro (rfl | rfl | hx)
        · exact Or.inl (Or.inl rfl)
        · exact Or.inr rfl
        · exact Or.inl (Or.inr hx)
    have hnodup : ((b :: sampleLoop e i e (b + i)) ++ [e]).Nodup := by
      have hpw : List.Pairwise (· < ·) ((b :: sampleLoop e i e (b + i)) ++ [e]) :=
        List.chain'_iff_pairwise.mp hchain
      exact hpw.imp ne_of_lt
    refine ⟨hchain, hmem, ?_, ?_, by decide, by decide⟩
    · apply List.count_eq_one_of_mem hnodup
      rw [hmem b]
      exact Or.inl rfl
    · apply List.count_eq_one_of_mem hnodup
      rw [hmem e]
      exact Or.inr (Or.inl rfl)

theorem sample_times_spec_witness :
    sample_times 1000 2200 300 = [1000, 1300, 1600, 1900, 2200] :=
  (sample_times_spec 1000 2200 300 (by norm_num) (by norm_num)).2.2.2.2.1

/-!
Frame-index computation, from split_video_by_words
(pipeline/video_processor.py lines 86-92):

    frame_number = int((sample_time / 1000.0) * fps)
    if frame_number >= total_frames:
        frame_number = total_frames - 1

Only the upper bound is clamped in the source; the computed value is
already nonnegative because sample times and fps are nonnegative.
-/

/-- The frame index used for seeking, lines 88-92 of
pipeline/video_processor.py. -/
def frame_number (sample_time : ℕ) (fps : ℚ) (total_frames : ℤ) : ℤ :=
  let n := pyInt ((sample_time : ℚ) / 1000 * fps)
  if total_frames ≤ n then total_frames - 1 else n

/-- Claim C2: with positive fps and at least one frame, the frame index
equals floor(t / 1000 * fps) clamped into [0, total_frames - 1], is never
below 0 nor above total_frames - 1, and the concrete spec example with
fps 30, 90 frames and sample time 5000 ms yields index 89. -/
theorem frame_number_clamped (t : ℕ) (fps : ℚ) (total_frames : ℤ)
    (hfps : 0 < fps) (htot : 1 ≤ total_frames) :
    frame_number t fps total_frames
        = max 0 (min ⌊(t : ℚ) / 1000 * fps⌋ (total_frames - 1)) ∧
    0 ≤ frame_number t fps total_frames ∧
    frame_number t fps total_frames ≤ total_frames - 1 ∧
    frame_number 5000 30 90 = 89 := by
  have hv : (0 : ℚ) ≤ (t : ℚ) / 1000 * fps := by positivity
  have hfl : 0 ≤ ⌊(t : ℚ) / 1000 * fps⌋ := Int.floor_nonneg.mpr hv
  have hpy : pyInt ((t : ℚ) / 1000 * fps) = ⌊(t : ℚ) / 1000 * fps⌋ := by
    simp [pyInt, hv]
  have hconc : frame_number 5000 30 90 = 89 := by
    have h1 : ((5000 : ℕ) : ℚ) / 1000 * 30 = 150 := by norm_num
    have h2 : pyInt (((5000 : ℕ) : ℚ) / 1000 * 30) = 150 := by
      rw [h1]
      simp [pyInt]
    simp only [frame_number, h2]
    norm_num
  have hmain : frame_number t fps total_frames
      = max 0 (min ⌊(t : ℚ) / 1000 * fps⌋ (total_frames - 1)) := by
    simp only [frame_number, hpy]
    by_cases h : total_frames ≤ ⌊(t : ℚ) / 1000 * fps⌋
    · rw [if_pos h]
      rw [min_eq_right (by omega)]
      rw [max_eq_right (by omega)]
    · rw [if_neg h]
      rw [min_eq_left (by omega)]
      rw [max_eq_right hfl]
  refine ⟨hmain, ?_, ?_, hconc⟩
  · rw [hmain]; exact le_max_left 0 _
  · rw [hmain]
    apply max_le (by omega) (min_le_right _ _)

theorem frame_number_clamped_witness : frame_number 5000 30 90 = 89 :=
  (frame_number_clamped 5000 30 90 (by norm_num) (by norm_num)).2.2.2

/-!
Coordinate conversion for one located object, from
IntentLabelPipeline.process (pipeline/pipeline.py lines 158-178):

    point_x = int(point[1]) / 1000
    point_y = int(point[0]) / 1000
    point_u = int(point_x * image_width)
    point_v = int(point_y * image_height)
    objects.append(... "pixel_coords": [point_u, point_v],
                       "normalized_coords": [point_x, point_y] ...)

The model returns point as [y, x]; the stored coordinate pairs are in
[x, y] order.
-/

structure LocatedObject where
  id : ℕ
  description : String
  point : ℤ × ℤ
  label : String
  pixel_coords : ℤ × ℤ
  normalized_coords : ℚ × ℚ

/-- One entry of the objects list of IntentLabelPipeline.process, built
from the model point (point.1 is point[0] = y, point.2 is point[1] = x)
and the terminal-frame dimensions. -/
def mkLocatedObject (i : ℕ) (description : String) (point : ℤ × ℤ)
    (label : String) (image_width image_height : ℕ) : LocatedObject :=
  let point_x : ℚ := (point.2 : ℚ) / 1000
  let point_y : ℚ := (point.1 : ℚ) / 1000
  let point_u : ℤ := pyInt (point_x * image_width)
  let point_v : ℤ := pyInt (point_y * image_height)
  ⟨i, description, point, label, (point_u, point_v), (point_x, point_y)⟩

/-- Claim C3: for a model point [y, x] with components in [0, 1000], the
stored normalized and pixel coordinates are in [x, y] order, with
x values derived from point[1] and y values from point[0], pixel values
computed by flooring, and the concrete spec example point [500, 750] on a
1920 by 1080 frame yields normalized (0.75, 0.5) and pixels (1440, 540). -/
theorem located_object_coords (i : ℕ) (d : String) (p : ℤ × ℤ) (lab : String)
    (w h : ℕ) (hy0 : 0 ≤ p.1) (hy1 : p.1 ≤ 1000) (hx0 : 0 ≤ p.2) (hx1 : p.2 ≤ 1000) :
    (mkLocatedObject i d p lab w h).normalized_coords
        = ((p.2 : ℚ) / 1000, (p.1 : ℚ) / 1000) ∧
    (mkLocatedObject i d p lab w h).pixel_coords
        = (⌊(p.2 : ℚ) / 1000 * w⌋, ⌊(p.1 : ℚ) / 1000 * h⌋) ∧
    (mkLocatedObject i d (500, 750) lab 1920 1080).normalized_coords = (3 / 4, 1 / 2) ∧
    (mkLocatedObject i d (500, 750) lab 1920 1080).pixel_coords = (1440, 540) := by
  have hx : (0 : ℚ) ≤ (p.2 : ℚ) / 1000 * w := by
    apply mul_nonneg
    · apply div_nonneg _ (by norm_num)
      exact_mod_cast hx0
    · positivity
  have hy : (0 : ℚ) ≤ (p.1 : ℚ) / 1000 * h := by
    apply mul_nonneg
    · apply div_nonneg _ (by norm_num)
      exact_mod_cast hy0
    · positivity
  refine ⟨rfl, ?_, ?_, ?_⟩
  · simp only [mkLocatedObject, pyInt, if_pos hx, if_pos hy]
  · simp only [mkLocatedObject]
    norm_num
  · simp only [mkLocatedObject, pyInt]
    norm_num

theorem located_object_coords_witness :
    (mkLocatedObject 0 "the cup" (500, 750) "cup" 1920 1080).pixel_coords
      = (1440, 540) :=
  (located_object_coords 0 "the cup" (500, 750) "cup" 1920 1080
    (by norm_num) (by norm_num) (by norm_num) (by norm_num)).2.2.2

/-!
The frame sampler split_video_by_words (pipeline/video_processor.py).
External effects are modelled by a VideoEnv of oracles: whether the
video file exists, whether cv2.VideoCapture opens it, the fps and frame
count it reports, whether a read at a given seek position returns a
frame, and whether cv2.imwrite succeeds for a given path.  Reads and
writes are modelled as deterministic functions of the seek position and
of the target path.  A ZeroDivisionError raised by the duration
computation (total_frames / fps with fps = 0, line 54, which sits before
the try block) is modelled as an error result; the try block itself
raises nothing, and the finally clause releases the capture.
-/

structure Word where
  text : String
  begin_time : ℕ
  end_time : ℕ

/-- One entry of result_data: the dict with the word text, its
[begin_time, end_time] timestamp pair, and the list of saved frame
paths. -/
structure WordData where
  word : String
  timestamp : ℕ × ℕ
  image_paths : List String

structure VideoEnv where
  videoExists : Bool
  openOk : Bool
  fps : ℚ
  total_frames : ℤ
  readOk : ℤ → Bool
  writeOk : String → Bool

/-- Interior-frame filename: output_dir joined with
{sample_time}_{word_text}.jpg (lines 100-101). -/
def framePath (output_dir : String) (sample_time : ℕ) (word_text : String) : String :=
  output_dir ++ "/" ++ toString sample_time ++ "_" ++ word_text ++ ".jpg"

/-- The body of the per-word loop (lines 64-119): build the sample-time
list, seek and read each sample, save the frame, and collect the paths
of the successfully saved images. -/
def processWord (env : VideoEnv) (output_dir : String) (interval : ℕ)
    (w : Word) : WordData :=
  let times := sample_times w.begin_time w.end_time interval
  let image_paths := times.filterMap (fun t =>
    if env.readOk (frame_number t env.fps env.total_frames) then
      if env.writeOk (framePath output_dir t w.text) then
        some (framePath output_dir t w.text)
      else none
    else none)
  ⟨w.text, (w.begin_time, w.end_time), image_paths⟩

/-- Terminal-frame filename: output_dir joined with
{int(duration_ms)}_last.jpg (lines 59 and 130). -/
def lastFramePath (env : VideoEnv) (output_dir : String) : String :=
  let last_frame_time_ms := pyInt ((env.total_frames : ℚ) / env.fps * 1000)
  output_dir ++ "/" ++ toString last_frame_time_ms ++ "_last.jpg"

/-- Outcome of one call of split_video_by_words: the returned pair (or
the uncaught exception), whether the capture was successfully opened,
and whether cap.release() ran before the function returned. -/
structure SplitOutcome where
  result : Except String (List WordData × String)
  opened : Bool
  released : Bool

/-- The frame sampler split_video_by_words (pipeline/video_processor.py
lines 32-146).  Early returns for a missing file, an empty word list and
a capture that fails to open; a ZeroDivisionError from the duration
computation when fps = 0 (line 54, before the try block, so the capture
is not released); otherwise the per-word sampling loop, the
terminal-frame read and write (empty string on failure), and the finally
clause releasing the capture. -/
def split_video_by_words (env : VideoEnv) (words_list : List Word)
    (output_dir : String) (sampling_interval : ℕ) : SplitOutcome :=
  if env.videoExists = false then ⟨Except.ok ([], ""), false, false⟩
  else if words_list.isEmpty then ⟨Except.ok ([], ""), false, false⟩
  else if env.openOk = false then ⟨Except.ok ([], ""), false, false⟩
  else if env.fps = 0 then ⟨Except.error "ZeroDivisionError", true, false⟩
  else
    let result_data := words_list.map (processWord env output_dir sampling_interval)
    let last_frame_path :=
      if env.readOk (env.total_frames - 1) then
        if env.writeOk (lastFramePath env output_dir) then lastFramePath env output_dir
        else ""
      else ""
    ⟨Except.ok (result_data, last_frame_path), true, true⟩

/-- The result_data component of a sampler outcome. -/
def resultData (o : SplitOutcome) : List WordData :=
  match o.result with
  | Except.ok (rd, _) => rd
  | Except.error _ => []

/-- Claim C4: when the sampler runs to completion on a non-empty word
list, result_data has exactly one entry per input word, in input order,
carrying that word and its [begin, end] timestamp, whether or not any of
its frames were read and saved. -/
theorem split_preserves_word_order (env : VideoEnv) (words_list : List Word)
    (output_dir : String) (interval : ℕ)
    (hv : env.videoExists = true) (hw : words_list.isEmpty = false)
    (ho : env.openOk = true) (hf : ¬env.fps = 0) :
    (resultData (split_video_by_words env words_list output_dir interval)).length
        = words_list.length ∧
    (resultData (split_video_by_words env words_list output_dir interval)).map
        WordData.word = words_list.map Word.text ∧
    (resultData (split_video_by_words env words_list output_dir interval)).map
        WordData.timestamp
      = words_list.map (fun w => (w.begin_time, w.end_time)) := by
  have hrd : resultData (split_video_by_words env words_list output_dir interval)
      = words_list.map (processWord env output_dir interval) := by
    simp [split_video_by_words, hv, hw, ho, hf, resultData]
  rw [hrd]
  refine ⟨List.length_map _ _, ?_, ?_⟩
  · rw [List.map_map]
    rfl
  · rw [List.map_map]
    rfl

/-- A video environment in which every read and write succeeds. -/
def envAllOk : VideoEnv :=
  ⟨true, true, 30, 90, fun _ => true, fun _ => true⟩

theorem split_preserves_word_order_witness :
    (resultData (split_video_by_words envAllOk [⟨"hi", 500, 500⟩] "out" 300)).map
        WordData.word = [⟨"hi", 500, 500⟩].map Word.text :=
  (split_preserves_word_order envAllOk [⟨"hi", 500, 500⟩] "out" 300
    rfl rfl rfl (by decide)).2.1

/-- Claim C10 (implicit): a sample contributes a path to the word frame
list exactly when both its frame read and its image write succeed, a
failed write silently skips only that sample, and every returned path
was successfully persisted. -/
theorem processWord_paths_persisted (env : VideoEnv) (output_dir : String)
    (interval : ℕ) (w : Word) :
    (processWord env output_dir interval w).image_paths
        = ((sample_times w.begin_time w.end_time interval).filter
            (fun t => env.readOk (frame_number t env.fps env.total_frames)
              && env.writeOk (framePath output_dir t w.text))).map
            (fun t => framePath output_dir t w.text) ∧
    ∀ p ∈ (processWord env output_dir interval w).image_paths,
      env.writeOk p = true ∧
      ∃ t ∈ sample_times w.begin_time w.end_time interval,
        p = framePath output_dir t w.text ∧
        env.readOk (frame_number t env.fps env.total_frames) = true := by
  have hfm : ∀ l : List ℕ,
      l.filterMap (fun t =>
        if env.readOk (frame_number t env.fps env.total_frames) then
          if env.writeOk (framePath output_dir t w.text) then
            some (framePath output_dir t w.text)
          else none
        else none)
      = (l.filter (fun t => env.readOk (frame_number t env.fps env.total_frames)
            && env.writeOk (framePath output_dir t w.text))).map
          (fun t => framePath output_dir t w.text) := by
    intro l
    induction l with
    | nil => rfl
    | cons t l ih =>
      by_cases hr : env.readOk (frame_number t env.fps env.total_frames) = true
      · by_cases hw : env.writeOk (framePath output_dir t w.text) = true
        · simp [List.filterMap_cons, List.filter_cons, hr, hw, ih]
        · simp only [Bool.not_eq_true] at hw
          simp [List.filterMap_cons, List.filter_cons, hr, hw, ih]
      · simp only [Bool.not_eq_true] at hr
        simp [List.filterMap_cons, List.filter_cons, hr, ih]
  constructor
  · exact hfm _
  · intro p hp
    have hp2 : p ∈ ((sample_times w.begin_time w.end_time interval).filter
        (fun t => env.readOk (frame_number t env.fps env.total_frames)
          && env.writeOk (framePath output_dir t w.text))).map
        (fun t => framePath output_dir t w.text) := by
      rw [← hfm]
      exact hp
    rcases List.mem_map.mp hp2 with ⟨t, htmem, rfl⟩
    have hpred := List.of_mem_filter htmem
    have htimes : t ∈ sample_times w.begin_time w.end_time interval :=
      List.mem_of_mem_filter htmem
    simp only [Bool.and_eq_true] at hpred
    exact ⟨hpred.2, t, htimes, rfl, hpred.1⟩

theorem processWord_paths_persisted_witness :
    envAllOk.writeOk "out/500_hi.jpg" = true :=
  ((processWord_paths_persisted envAllOk "out" 300 ⟨"hi", 500, 500⟩).2
    "out/500_hi.jpg" (by decide)).1

/-- A video environment whose capture opens but reports fps = 0, as
cv2.VideoCapture does for some corrupt or metadata-poor streams. -/
def envZeroFps : VideoEnv :=
  ⟨true, true, 0, 90, fun _ => true, fun _ => true⟩

/-- Claim C9 evaluation: with fps = 0 the duration computation
total_frames / fps raises ZeroDivisionError on line 54, before the
try block that starts on line 63, so the successfully opened capture is
never released.  The release-on-every-path claim fails on this input;
inside the try block release is unconditional. -/
theorem capture_leaked_on_zero_fps :
    (split_video_by_words envZeroFps [⟨"hi", 0, 100⟩] "out" 300).opened = true ∧
    (split_video_by_words envZeroFps [⟨"hi", 0, 100⟩] "out" 300).released = false ∧
    (split_video_by_words envZeroFps [⟨"hi", 0, 100⟩] "out" 300).result
        = Except.error "ZeroDivisionError" := by
  refine ⟨rfl, rfl, rfl⟩

/-!
The orchestrator IntentLabelPipeline.process (pipeline/pipeline.py lines
46-231).  External stages are modelled by a PipeEnv of oracles: whether
the input file exists, the outcome of extract_audio_and_video (None on
failure, per video_preprocessor.py), the ASR result, whether the
extracted video file exists, the pair returned by split_video_by_words,
the two LLM calls (an error value models a raised exception), the
cv2.imread result as (height, width), and the per-iteration outcome of
locate_object_in_image.  The outcome records whether the JSON record
was written (json.dump on line 217, reached only after every object was
located) and whether the mkdtemp temporary directory still exists when
the call returns.  The directory is created on line 81 when
keep_extracted_files is false; the try block whose finally clause
removes it only starts on line 94, after the extraction-failure check on
lines 91-92.
-/

structure PointData where
  p0 : ℤ
  p1 : ℤ
  label : String

structure PipeEnv where
  inputExists : Bool
  extractResult : Option (String × String)
  asrSuccess : Bool
  asrWords : List Word
  videoExists : Bool
  splitResult : List WordData × String
  analyzeResult : Except String String
  extractDescsResult : Except String (List String)
  imreadResult : Option (ℕ × ℕ)
  locateResult : ℕ → Except String PointData

/-- The assembled record written to the output JSON file (path fields
elided; they are string bookkeeping around the same data). -/
structure PipelineData where
  video_description : String
  result_data : List WordData
  objects : List LocatedObject
  image_width : ℕ
  image_height : ℕ

structure ProcessOutcome where
  result : Except String PipelineData
  tempDirExists : Bool
  jsonWritten : Bool

/-- The object-location loop (pipeline/pipeline.py lines 151-178): one
locate_object_in_image call per description, in order, stopping at the
first raised exception. -/
def locateLoop (locate : ℕ → Except String PointData)
    (image_width image_height : ℕ) :
    List String → ℕ → Except String (List LocatedObject)
  | [], _ => Except.ok []
  | d :: rest, i =>
    match locate i with
    | Except.error e => Except.error e
    | Except.ok pd =>
      match locateLoop locate image_width image_height rest (i + 1) with
      | Except.error e => Except.error e
      | Except.ok objs =>
        Except.ok (mkLocatedObject i d (pd.p0, pd.p1) pd.label
          image_width image_height :: objs)

/-- Record assembly (lines 199-222): the pipeline_data dict and the
json.dump, reached only when the location loop raised nothing. -/
def assembleRecord (env : PipeEnv) (video_description : String)
    (image_width image_height : ℕ) :
    Except String (List LocatedObject) → Except String PipelineData
  | Except.error e => Except.error e
  | Except.ok objects =>
    Except.ok ⟨video_description, env.splitResult.1, objects,
      image_width, image_height⟩

/-- Stage 5 (lines 144-178): cv2.imread of the terminal frame (raising
when it returns None), the shape read giving (height, width), and the
location loop. -/
def locatePhase (env : PipeEnv) (video_description : String)
    (object_descriptions : List String) :
    Option (ℕ × ℕ) → Except String PipelineData
  | none => Except.error "cannot read image"
  | some (image_height, image_width) =>
    assembleRecord env video_description image_width image_height
      (locateLoop env.locateResult image_width image_height
        object_descriptions 0)

/-- Stage 4 (lines 138-139): the object-description extraction call; a
raised exception propagates. -/
def extractPhase (env : PipeEnv) (video_description : String) :
    Except String (List String) → Except String PipelineData
  | Except.error e => Except.error e
  | Except.ok object_descriptions =>
    locatePhase env video_description object_descriptions env.imreadResult

/-- Stage 3 (lines 133-134): the video-intent analysis call; a raised
exception propagates. -/
def analyzePhase (env : PipeEnv) :
    Except String String → Except String PipelineData
  | Except.error e => Except.error e
  | Except.ok video_description =>
    extractPhase env video_description env.extractDescsResult

/-- The body of the try block of IntentLabelPipeline.process (lines
94-222): the ASR check, the sampling checks on result_data and the
terminal-frame path, then the staged LLM calls.  An error value is a
raised exception. -/
def processBody (env : PipeEnv) : Except String PipelineData :=
  if env.asrSuccess = false ∨ env.asrWords.isEmpty then
    Except.error "speech recognition failed"
  else if env.videoExists = false then Except.error "video file missing"
  else if env.splitResult.1.isEmpty then Except.error "video processing failed"
  else if env.splitResult.2 = "" then
    Except.error "video processing failed: terminal frame not saved"
  else analyzePhase env env.analyzeResult

/-- The orchestrator IntentLabelPipeline.process.  The input-missing
check precedes mkdtemp; the extraction-failure check sits between
mkdtemp (which runs exactly when keep_extracted_files is false) and the
try block, so on that path the temporary directory is not removed;
every path through the try block, normal or raising, removes it in the
finally clause.  json.dump runs exactly when the body completes. -/
def IntentLabelPipeline.process (env : PipeEnv)
    (keep_extracted_files : Bool) : ProcessOutcome :=
  if env.inputExists = false then
    ⟨Except.error "input video missing", false, false⟩
  else
    match env.extractResult with
    | none => ⟨Except.error "extraction failed", !keep_extracted_files, false⟩
    | some _ => ⟨processBody env, false, (processBody env).isOk⟩

theorem locateLoop_isOk_false (locate : ℕ → Except String PointData)
    (image_width image_height : ℕ) :
    ∀ (descs : List String) (start j : ℕ), j < descs.length →
      (locate (start + j)).isOk = false →
      (locateLoop locate image_width image_height descs start).isOk = false := by
  intro descs
  induction descs with
  | nil =>
    intro start j hj
    simp at hj
  | cons d rest ih =>
    intro start j hj hf
    cases hl : locate start with
    | error e =>
      simp only [locateLoop, hl]
      rfl
    | ok pd =>
      cases j with
      | zero =>
        rw [Nat.add_zero] at hf
        rw [hl] at hf
        simp [Except.isOk, Except.toBool] at hf
      | succ m =>
        have harg : start + 1 + m = start + (m + 1) := by omega
        have hrec : (locateLoop locate image_width image_height rest
            (start + 1)).isOk = false := by
          apply ih (start + 1) m (by simpa using hj)
          rw [harg]
          exact hf
        simp only [locateLoop, hl]
        cases hr : locateLoop locate image_width image_height rest (start + 1) with
        | error e => simp [Except.isOk, Except.toBool]
        | ok objs =>
          rw [hr] at hrec
          simp [Except.isOk, Except.toBool] at hrec

theorem assembleRecord_isOk (env : PipeEnv) (vd : String)
    (iw ih : ℕ) (r : Except String (List LocatedObject)) :
    (assembleRecord env vd iw ih r).isOk = r.isOk := by
  cases r <;> rfl

theorem process_fails_of_body_fails (env : PipeEnv) (keep : Bool)
    (hbody : (processBody env).isOk = false) :
    (IntentLabelPipeline.process env keep).result.isOk = false ∧
    (IntentLabelPipeline.process env keep).jsonWritten = false := by
  unfold IntentLabelPipeline.process
  by_cases hin : env.inputExists = false
  · rw [if_pos hin]
    exact ⟨rfl, rfl⟩
  · rw [if_neg hin]
    cases hex : env.extractResult with
    | none => exact ⟨rfl, rfl⟩
    | some p => exact ⟨hbody, hbody⟩

/-- Claim C6: if any object-location iteration fails, the JSON record is
not written and the run raises; the record is all-or-nothing. -/
theorem process_no_record_on_locate_failure (env : PipeEnv) (keep : Bool)
    (descs : List String) (j : ℕ)
    (hd : env.extractDescsResult = Except.ok descs)
    (hj : j < descs.length)
    (hf : (env.locateResult j).isOk = false) :
    (IntentLabelPipeline.process env keep).jsonWritten = false ∧
    (IntentLabelPipeline.process env keep).result.isOk = false := by
  have hf0 : (env.locateResult (0 + j)).isOk = false := by
    rw [Nat.zero_add]; exact hf
  have hbody : (processBody env).isOk = false := by
    simp only [processBody]
    split_ifs with h1 h2 h3 h4
    · rfl
    · rfl
    · rfl
    · rfl
    · cases ha : env.analyzeResult with
      | error e => rfl
      | ok vd =>
        simp only [analyzePhase, hd, extractPhase]
        cases him : env.imreadResult with
        | none => rfl
        | some wh =>
          obtain ⟨ih, iw⟩ := wh
          simp only [locatePhase, assembleRecord_isOk]
          exact locateLoop_isOk_false env.locateResult iw ih descs 0 j hj hf0
  have h := process_fails_of_body_fails env keep hbody
  exact ⟨h.2, h.1⟩

/-- A pipeline environment in which the second of two extracted object
descriptions fails to locate (the model response parses for index 0 and
raises for index 1). -/
def envLocFail : PipeEnv :=
  ⟨true, some ("a.mp3", "v.mp4"), true, [⟨"hi", 500, 500⟩], true,
    ([⟨"hi", (500, 500), []⟩], "out/3000_last.jpg"),
    Except.ok "a person reaches for a cup",
    Except.ok ["the red cup", "the blue plate"],
    some (1080, 1920),
    fun j => if j = 1 then Except.error "ParseError"
             else Except.ok ⟨500, 750, "cup"⟩⟩

theorem process_no_record_on_locate_failure_witness :
    (IntentLabelPipeline.process envLocFail false).jsonWritten = false :=
  (process_no_record_on_locate_failure envLocFail false
    ["the red cup", "the blue plate"] 1 rfl (by decide) rfl).1

/-- Claim C7: when the terminal-frame read (or its write) fails, the
sampler returns the empty string as the terminal-frame path, and an
orchestrator run whose sampler returned an empty terminal path raises
and writes no JSON record. -/
theorem terminal_frame_failure_aborts
    (venv : VideoEnv) (words : List Word) (dir : String) (interval : ℕ)
    (penv : PipeEnv) (keep : Bool)
    (hv : venv.videoExists = true) (hw : words.isEmpty = false)
    (ho : venv.openOk = true) (hfps : ¬venv.fps = 0)
    (hread : venv.readOk (venv.total_frames - 1) = false)
    (hterm : penv.splitResult.2 = "") :
    (split_video_by_words venv words dir interval).result
        = Except.ok (words.map (processWord venv dir interval), "") ∧
    (IntentLabelPipeline.process penv keep).result.isOk = false ∧
    (IntentLabelPipeline.process penv keep).jsonWritten = false := by
  have hsplit : (split_video_by_words venv words dir interval).result
      = Except.ok (words.map (processWord venv dir interval), "") := by
    simp [split_video_by_words, hv, hw, ho, hfps, hread]
  have hbody : (processBody penv).isOk = false := by
    simp only [processBody]
    split_ifs with h1 h2 h3
    · rfl
    · rfl
    · rfl
    · rfl
  exact ⟨hsplit, process_fails_of_body_fails penv keep hbody⟩

/-- A video environment in which every frame read fails, in particular
the terminal-frame read. -/
def envNoTerminal : VideoEnv :=
  ⟨true, true, 30, 90, fun _ => false, fun _ => true⟩

/-- A pipeline environment whose sampler stage returned an empty
terminal-frame path. -/
def envTermEmpty : PipeEnv :=
  ⟨true, some ("a.mp3", "v.mp4"), true, [⟨"hi", 500, 500⟩], true,
    ([⟨"hi", (500, 500), []⟩], ""), Except.ok "d", Except.ok [],
    some (1080, 1920), fun _ => Except.ok ⟨0, 0, "x"⟩⟩

theorem terminal_frame_failure_aborts_witness :
    (IntentLabelPipeline.process envTermEmpty false).jsonWritten = false :=
  (terminal_frame_failure_aborts envNoTerminal [⟨"hi", 500, 500⟩] "out" 300
    envTermEmpty false rfl rfl rfl (by decide) rfl rfl).2.2

/-- A pipeline environment in which the input file exists but
extract_audio_and_video fails and returns the (None, None) sentinel. -/
def envExtractFail : PipeEnv :=
  ⟨true, none, false, [], false, ([], ""), Except.error "unused",
    Except.error "unused", none, fun _ => Except.error "unused"⟩

/-- Claim C8 evaluation: with keep_extracted_files false the temporary
directory is created by mkdtemp on line 81, but when the extraction
stage fails the ValueError on line 92 is raised before the try block of
line 94, so the finally clause never runs and the temporary directory
still exists when process returns.  The cleanup-on-every-path claim
fails on this input; with keep_extracted_files true no temporary
directory is created at all. -/
theorem temp_dir_survives_extraction_failure :
    (IntentLabelPipeline.process envExtractFail false).tempDirExists = true ∧
    (IntentLabelPipeline.process envExtractFail false).result.isOk = false ∧
    (IntentLabelPipeline.process envExtractFail false).jsonWritten = false ∧
    (IntentLabelPipeline.process envExtractFail true).tempDirExists = false := by
  refine ⟨rfl, rfl, rfl, rfl⟩

/-!
Object-description extraction, from LLMClient.extract_object_descriptions
(pipeline/llm_client.py lines 108-126):

    content = response.choices[0].message.content
    match_group = re.findall(r'<description>(.*?)</description>', content)
    return match_group

The function returns every non-overlapping match of the delimiter
pattern, in order of occurrence; no length cap is applied in code.  The
scan below mirrors the regex engine: at each position, try to match the
literal opening tag, then extend the lazy group one character at a time
(never across a newline, since dot does not match newline without
DOTALL) until the closing tag matches; on success resume scanning after
the match, otherwise advance one character.  The scan consumes at least
one character per step, so fuel equal to the content length suffices.
-/

def openTag : List Char := "<description>".data

def closeTag : List Char := "</description>".data

/-- Lazy extension of the group: return the shortest prefix (without a
newline) followed by the closing tag, together with the remainder after
the closing tag. -/
def scanClose : List Char → Option (List Char × List Char)
  | [] => none
  | c :: rest =>
    if closeTag.isPrefixOf (c :: rest) then some ([], (c :: rest).drop closeTag.length)
    else if c = '\n' then none
    else
      match scanClose rest with
      | none => none
      | some (cap, rem) => some (c :: cap, rem)

/-- Attempt one match of the pattern at exactly this position. -/
def tryMatch (s : List Char) : Option (List Char × List Char) :=
  if openTag.isPrefixOf s then scanClose (s.drop openTag.length) else none

/-- The re.findall scan over the content. -/
def findDescs : ℕ → List Char → List (List Char)
  | 0, _ => []
  | _ + 1, [] => []
  | fuel + 1, c :: rest =>
    match tryMatch (c :: rest) with
    | some (cap, rem) => cap :: findDescs fuel rem
    | none => findDescs fuel rest

/-- LLMClient.extract_object_descriptions applied to the content of the
model response. -/
def extract_object_descriptions (content : String) : List String :=
  (findDescs content.data.length content.data).map List.asString

/-- A model response containing three delimiter pairs, as a cooperative
prompt cannot rule out. -/
def threeDescResponse : String :=
  "<description>red cup</description><description>blue plate</description><description>green bowl</description>"

/-- Claim C5 counterexample: extract_object_descriptions applies no
length cap, so a response with three delimiter pairs yields three
descriptions, refuting the claimed bound of two. -/
theorem extract_object_descriptions_over_two :
    (extract_object_descriptions threeDescResponse).length = 3 ∧
    ¬(extract_object_descriptions threeDescResponse).length ≤ 2 := by
  refine ⟨by decide, by decide⟩

/-- Claim C5 amended: extract_object_descriptions returns the ordered
sequence of all delimiter matches found in the response, with no
enforced length cap; on a response with three delimiter pairs it
returns exactly those three descriptions in order. -/
theorem extract_object_descriptions_all_matches :
    extract_object_descriptions threeDescResponse
      = ["red cup", "blue plate", "green bowl"] := by
  decide
